import Mathlib

/-!
Verification development for the multi-decree Paxos implementation in
`our-paxos/paxos.py`.  The Python source is shallowly embedded: Python
integers become `Int`, byte strings become `List Nat` (one entry per byte,
each < 256), Python exceptions become the `Except String` monad, and the
per-role event loops become explicit step functions folded over lists of
decoded messages.  Python's `x & (2**16 - 1)` on arbitrary integers is
floor-mod, i.e. `Int.emod x 65536`, and `x >> 16` is floor division,
i.e. `Int.ediv x 65536`; `x << 16 | y` for arbitrary `y` is modelled with
`Int.lor (x * 65536) y`, whose two's-complement semantics agrees with
Python's bitwise or on unbounded integers.
-/

/-- Number of acceptors, from `ACCEPTORS_AMOUNT = 3` in the source. -/
def ACCEPTORS_AMOUNT : Nat := 3

/-- Quorum size, from `QUORUM_AMOUNT = int(ACCEPTORS_AMOUNT/2) + 1`. -/
def QUORUM_AMOUNT : Nat := ACCEPTORS_AMOUNT / 2 + 1

/-- An element of the Python list handed to `paxos_encode`: either an
integer or some non-integer object (the code only tests `isinstance(elem, int)`). -/
inductive PyObj where
  | int : Int → PyObj
  | nonint : PyObj
deriving DecidableEq

/-- The accumulation loop of `paxos_encode`: for each element,
`msg = msg << 16 | elem; nbytes += 2`, raising on non-integers. -/
def encodeLoop : List PyObj → Int → Nat → Except String (Int × Nat)
  | [], msg, nbytes => .ok (msg, nbytes)
  | PyObj.int i :: rest, msg, nbytes => encodeLoop rest (Int.lor (msg * 65536) i) (nbytes + 2)
  | PyObj.nonint :: _, _, _ => .error "Exception: Expected list of integers as argument"

/-- Big-endian bytes of `v mod 256^k`, most significant first. -/
def natToBEBytes : Nat → Nat → List Nat
  | 0, _ => []
  | k + 1, v => natToBEBytes k (v / 256) ++ [v % 256]

/-- Python's `v.to_bytes(nbytes, 'big', signed=True)`: succeeds exactly when
`v` fits in `nbytes` bytes as a signed two's-complement number, otherwise
raises `OverflowError`. -/
def to_bytes_signed (nbytes : Nat) (v : Int) : Except String (List Nat) :=
  if -(2 ^ (8 * nbytes - 1) : Int) ≤ v ∧ v < 2 ^ (8 * nbytes - 1) then
    .ok (natToBEBytes nbytes (Int.emod v (2 ^ (8 * nbytes))).toNat)
  else .error "OverflowError: int too big to convert"

/-- `paxos_encode` from the source: shift each chunk in, append the length
as the trailing chunk, and serialize with `to_bytes(nbytes, 'big', signed=True)`. -/
def paxos_encode (loc : List PyObj) : Except String (List Nat) :=
  match encodeLoop loc 0 0 with
  | .error e => .error e
  | .ok (msg, nbytes) =>
      to_bytes_signed (nbytes + 2) (Int.lor (msg * 65536) (loc.length : Int))

/-- Big-endian unsigned value of a byte string. -/
def from_bytes_be (bs : List Nat) : Nat := bs.foldl (fun a b => a * 256 + b) 0

/-- Python's `int.from_bytes(bs, byteorder='big', signed=True)`. -/
def from_bytes_signed (bs : List Nat) : Int :=
  let u := from_bytes_be bs
  if 2 * u < 2 ^ (8 * bs.length) then (u : Int) else (u : Int) - 2 ^ (8 * bs.length)

/-- The chunk-extraction loop of `paxos_decode`: repeatedly take the low
16 bits (`msg & 2**16 - 1`, i.e. floor-mod 65536) and shift (`msg >> 16`,
i.e. floor-divide by 65536), inserting at the front of the list. -/
def decodeChunks : Nat → Int → List Int
  | 0, _ => []
  | k + 1, msg => decodeChunks k (Int.ediv msg 65536) ++ [Int.emod msg 65536]

/-- `paxos_decode` from the source: read the trailing length chunk, then
extract that many 16-bit chunks most-significant-first. -/
def paxos_decode (bs : List Nat) : List Int :=
  let msg := from_bytes_signed bs
  decodeChunks (Int.emod msg 65536).toNat (Int.ediv msg 65536)

deriving instance DecidableEq for Except

/-- Python `loc[i]` for a constant non-negative index: raises `IndexError`
when the list is too short. -/
def pyGetE (l : List Int) (i : Nat) : Except String Int :=
  match l.get? i with
  | some x => .ok x
  | none => .error "IndexError"

/-- Python `l[i]` for a possibly negative integer index (negative indices
wrap from the end, as everywhere in Python). -/
def pyGetI {α : Type} (l : List α) (i : Int) : Except String α :=
  let j : Int := if i < 0 then i + l.length else i
  if 0 ≤ j then
    match l.get? j.toNat with
    | some x => .ok x
    | none => .error "IndexError"
  else .error "IndexError"

/-- Python `l[i] = x` for a possibly negative integer index. -/
def pySetI {α : Type} (l : List α) (i : Int) (x : α) : Except String (List α) :=
  let j : Int := if i < 0 then i + l.length else i
  if 0 ≤ j ∧ j < (l.length : Int) then .ok (l.set j.toNat x)
  else .error "IndexError"

/-- Python dict lookup `d[k]` over an association list (raises `KeyError`). -/
def alookup {α : Type} (m : List (Int × α)) (k : Int) : Option α :=
  (m.find? (fun p => p.1 = k)).map Prod.snd

/-- Python dict assignment `d[k] = v` over an association list. -/
def aset {α : Type} : List (Int × α) → Int → α → List (Int × α)
  | [], k, v => [(k, v)]
  | (k', v') :: t, k, v => if k' = k then (k, v) :: t else (k', v') :: aset t k v

/-- Per-instance acceptor state `{"rnd": x, "v-rnd": y, "v-val": z}`. -/
structure AccState where
  rnd : Int
  vrnd : Int
  vval : Int
deriving DecidableEq

/-- The acceptor's `init_state = {"rnd": 0, "v-rnd": 0, "v-val": 0}`. -/
def acc_init : AccState := ⟨0, 0, 0⟩

/-- A decoded message concerning one acceptor instance: PHASE_1A carries
`c-rnd`, PHASE_2A carries `c-rnd` and `c-val`, RESEND_2B (phase 4) carries
nothing, and any other phase is logged and dropped. -/
inductive AccMsg where
  | p1a : Int → AccMsg
  | p2a : Int → Int → AccMsg
  | resend : AccMsg
  | other : AccMsg
deriving DecidableEq

/-- One acceptor transition for instance `aid`, from the branch on `phase`
in `acceptor`: 1A with `c-rnd > rnd` adopts the round and answers 1B;
2A with `c-rnd ≥ rnd` stores the vote and emits 2B; RESEND_2B re-emits 2B
when `v-rnd ≠ 0`.  Returns the new state and the emitted payloads. -/
def acceptor_step_i (aid : Int) (st : AccState) (m : AccMsg) : AccState × List (List Int) :=
  match m with
  | .p1a crnd =>
      if crnd > st.rnd then
        let st' := { st with rnd := crnd }
        (st', [[aid, 1, st'.rnd, st'.vrnd, st'.vval]])
      else (st, [])
  | .p2a crnd cval =>
      if crnd ≥ st.rnd then
        let st' := { st with vrnd := crnd, vval := cval }
        (st', [[aid, 2, st'.vrnd, st'.vval]])
      else (st, [])
  | .resend =>
      if st.vrnd ≠ 0 then (st, [[aid, 2, st.vrnd, st.vval]]) else (st, [])
  | .other => (st, [])

/-- Fold of `acceptor_step_i` over a sequence of received messages for one
instance (the per-instance view of the acceptor's receive loop). -/
def acc_run (aid : Int) : AccState → List AccMsg → AccState
  | st, [] => st
  | st, m :: ms => acc_run aid (acceptor_step_i aid st m).1 ms

/-- The delivery discipline under which acceptor state is monotone: every
PHASE_2A that passes the `c-rnd ≥ rnd` check carries `c-rnd` strictly above
the current `v-rnd`. -/
def wf2A (aid : Int) : AccState → List AccMsg → Bool
  | _, [] => true
  | st, m :: ms =>
      (match m with
       | .p2a c _ => decide (st.rnd ≤ c → st.vrnd < c)
       | _ => true) && wf2A aid (acceptor_step_i aid st m).1 ms

/-- The acceptor's full per-datagram handler: decode fields, lazily insert
`init_state` for a fresh instance, then dispatch on the phase.  Missing
fields raise `IndexError` exactly where the Python subscripts would. -/
def acceptor_handle (pm : List (Int × AccState)) (loc : List Int) :
    Except String (List (Int × AccState) × List (List Int)) := do
  let aid ← pyGetE loc 0
  let phase ← pyGetE loc 1
  let st := (alookup pm aid).getD acc_init
  if phase = 1 then do
    let crnd ← pyGetE loc 2
    let (st', outs) := acceptor_step_i aid st (.p1a crnd)
    .ok (aset pm aid st', outs)
  else if phase = 2 then do
    let crnd ← pyGetE loc 2
    let cval ← pyGetE loc 3
    let (st', outs) := acceptor_step_i aid st (.p2a crnd cval)
    .ok (aset pm aid st', outs)
  else if phase = 4 then
    let (st', outs) := acceptor_step_i aid st .resend
    .ok (aset pm aid st', outs)
  else
    .ok (aset pm aid st, [])

/-- Per-instance proposer state
`{"c-rnd": .., "client-val": .., "Q": .., "highest-v-rnd": .., "c-val": ..}`. -/
structure PropInst where
  c_rnd : Int
  client_val : Int
  Q : Nat
  highest_v_rnd : Int
  c_val : Int
deriving DecidableEq

/-- The proposer's PHASE_1B branch for one instance: count the 1B when
`c-rnd ≤ rnd`, adopt `(vrnd, vval)` on a strictly larger `vrnd`, then emit
PHASE_2A `(c-rnd, val)` whenever the updated `Q` has reached the quorum
(the code re-emits on every later 1B as well, counted or stale). -/
def handle1B (st : PropInst) (rnd vrnd vval : Int) : PropInst × List (Int × Int) :=
  let st1 :=
    if st.c_rnd ≤ rnd then
      let st' := { st with Q := st.Q + 1 }
      if vrnd > st.highest_v_rnd then
        { st' with highest_v_rnd := vrnd, c_val := vval }
      else st'
    else st
  let outs :=
    if QUORUM_AMOUNT ≤ st1.Q then
      [(st1.c_rnd, if st1.highest_v_rnd = 0 then st1.client_val else st1.c_val)]
    else []
  (st1, outs)

/-- The proposer's full per-datagram handler over its instance dictionary
and the `pinit` counter: SUBMIT (tag 0) allocates the next instance and
sends 1A; tag 1 unpacks exactly five fields (else `ValueError`), looks the
instance up (else `KeyError`) and runs `handle1B`; tag 5 renews the round.
Unknown tags fall through silently. -/
def proposer_handle (s : List (Int × PropInst) × Int) (msg : List Int) :
    Except String ((List (Int × PropInst) × Int) × List (List Int)) := do
  let (pm, pinit) := s
  let tag ← pyGetE msg 1
  if tag = 0 then do
    let value ← pyGetE msg 2
    let st : PropInst := ⟨1, value, 0, 0, 0⟩
    .ok ((aset pm pinit st, pinit + 1), [[pinit, 1, 1]])
  else if tag = 1 then
    match msg with
    | [inst, _, rnd, vrnd, vval] =>
        match alookup pm inst with
        | none => .error "KeyError"
        | some st =>
            let (st', outs) := handle1B st rnd vrnd vval
            .ok ((aset pm inst st', pinit), outs.map (fun o => [inst, 2, o.1, o.2]))
    | _ => .error "ValueError: not enough values to unpack"
  else if tag = 5 then do
    let inst ← pyGetE msg 0
    match alookup pm inst with
    | none => .error "KeyError"
    | some st =>
        let new_rnd := st.c_rnd + 1
        let clientval := st.client_val
        .ok ((aset pm inst ⟨new_rnd, clientval, 0, 0, 0⟩, pinit), [[inst, 1, new_rnd]])
  else
    .ok ((pm, pinit), [])

/-- One pass of the `proposer_timeout` watchdog body for instance `i`:
if the quorum has not been reached, bump `c-rnd`, keep `client-val`, zero
the rest, and resend PHASE_1A. -/
def proposer_timeout_body (pm : List (Int × PropInst)) (i : Int) :
    Except String (List (Int × PropInst) × List (List Int)) :=
  match alookup pm i with
  | none => .error "KeyError"
  | some st =>
      if st.Q < QUORUM_AMOUNT then
        let new_rnd := st.c_rnd + 1
        let clientval := st.client_val
        .ok (aset pm i ⟨new_rnd, clientval, 0, 0, 0⟩, [[i, 1, new_rnd]])
      else .ok (pm, [])

/-- Fold of `proposer_handle` over a list of decoded datagrams, collecting
everything sent; an uncaught exception aborts the run. -/
def prop_run (s : List (Int × PropInst) × Int) :
    List (List Int) → Except String ((List (Int × PropInst) × Int) × List (List Int))
  | [] => .ok (s, [])
  | m :: ms => do
      let (s1, out1) ← proposer_handle s m
      let (s2, out2) ← prop_run s1 ms
      .ok (s2, out1 ++ out2)

/-- Learner state: the `messages` array of per-instance vote lists, the
parallel `messages_running` watchdog flags, and the `learned` pointer. -/
structure LearnerState where
  messages : List (List Int)
  running : List Bool
  learned : Nat
deriving DecidableEq

/-- A learner's initial state: `messages = []`, `messages_running = []`,
`learned = 0`. -/
def linit : LearnerState := ⟨[], [], 0⟩

/-- The learner's list-growing loops: append `n` empty entries, flagging
each with `fill` in `messages_running`. -/
def growTo (fill : Bool) : Nat → List (List Int) × List Bool → List (List Int) × List Bool
  | 0, p => p
  | n + 1, (ms, rs) => growTo fill n (ms ++ [[]], rs ++ [fill])

/-- The learner's `validity` scan: every vote equals the first one
(vacuously true on an empty entry, which the loop never inspects further). -/
def validAll : List Int → Bool
  | [] => true
  | h :: t => (h :: t).all (fun v => v == h)

/-- The learner's advance loop (tag 2, `inst_id < len(messages)` branch):
while the entry at `learned` holds at least `QUORUM_AMOUNT - 1` votes,
check that all its votes agree; if so append `value` to entry `inst_id`
and print the first vote of entry `learned`; in either case increment
`learned`.  The fuel argument only bounds the recursion; the loop exits by
itself once `learned` reaches the end of the array. -/
def advanceLoop (inst_id : Int) (value : Int) :
    Nat → List (List Int) → Nat → Except String (List (List Int) × Nat × List (Nat × Int))
  | 0, msgs, learned => .ok (msgs, learned, [])
  | fuel + 1, msgs, learned =>
    match msgs.get? learned with
    | none => .ok (msgs, learned, [])
    | some entry =>
      if QUORUM_AMOUNT - 1 ≤ entry.length then
        if validAll entry then do
          let cur ← pyGetI msgs inst_id
          let msgs' ← pySetI msgs inst_id (cur ++ [value])
          match (msgs'.get? learned).bind List.head? with
          | some x => do
              let (msgs'', learned', printed) ← advanceLoop inst_id value fuel msgs' (learned + 1)
              .ok (msgs'', learned', (learned, x) :: printed)
          | none => .error "IndexError"
        else advanceLoop inst_id value fuel msgs (learned + 1)
      else .ok (msgs, learned, [])

/-- The learner's catch-up broadcast (tag 3): walk the log from the front
and re-send `[inst+1, 1, value]` for every decided index below `learned`,
stopping at the first index at or beyond `learned`. -/
def catchupLoop (learned : Nat) : List (List Int) → Nat → Except String (List (List Int))
  | [], _ => .ok []
  | entry :: rest, inst =>
      if inst < learned then do
        let h ← (match entry.head? with
                 | some x => Except.ok x
                 | none => Except.error "IndexError")
        let tail ← catchupLoop learned rest (inst + 1)
        .ok ([((inst : Int) + 1), 1, h] :: tail)
      else .ok []

/-- The tail of the learner's tag-2 branch: if entry `inst_id` now holds
exactly one vote, set its `messages_running` flag (arming the watchdog). -/
def learner_postlude (st : LearnerState) (inst_id : Int) (printed : List (Nat × Int)) :
    Except String (LearnerState × List (Nat × Int) × List (List Int)) := do
  let entry ← pyGetI st.messages inst_id
  if entry.length = 1 then do
    let rs' ← pySetI st.running inst_id true
    .ok (⟨st.messages, rs', st.learned⟩, printed, [])
  else .ok (st, printed, [])

/-- The learner's per-datagram handler, from the body of its receive loop:
`inst_id = msg[0] - 1`; tag 1 is a peer update (grow, record three copies
while below quorum, print entry `learned` and advance), tag 2 is PHASE_2B
(grow or append, run the advance loop when entry `inst_id` is at the
quorum-minus-one threshold and `inst_id == learned`, then maybe arm the
watchdog), tag 3 answers a catch-up request, and any other tag is answered
with a `[503]` datagram.  Results are `(state, printed, sent)` where each
printed element pairs the value with the `learned` slot it was printed
for. -/
def learner_handle (st : LearnerState) (msg : List Int) :
    Except String (LearnerState × List (Nat × Int) × List (List Int)) := do
  let m0 ← pyGetE msg 0
  let inst_id : Int := m0 - 1
  if 2 ≤ msg.length then do
    let tag ← pyGetE msg 1
    if tag = 1 then do
      let (ms1, rs1) := growTo true (inst_id + 1 - (st.messages.length : Int)).toNat
        (st.messages, st.running)
      let entry ← pyGetI ms1 inst_id
      if entry.length < QUORUM_AMOUNT then do
        let v ← pyGetE msg 2
        let ms2 ← pySetI ms1 inst_id (entry ++ [v, v, v])
        match (ms2.get? st.learned).bind List.head? with
        | some x => .ok (⟨ms2, rs1, st.learned + 1⟩, [(st.learned, x)], [])
        | none => .error "IndexError"
      else .ok (⟨ms1, rs1, st.learned⟩, [], [])
    else if tag = 2 then do
      let value ← pyGetE msg 3
      if inst_id > (st.messages.length : Int) then do
        let (msA, rsA) := growTo false (inst_id - (st.messages.length : Int)).toNat
          (st.messages, st.running)
        learner_postlude ⟨msA ++ [[value]], rsA ++ [true], st.learned⟩ inst_id []
      else if inst_id = (st.messages.length : Int) then
        learner_postlude ⟨st.messages ++ [[value]], st.running ++ [true], st.learned⟩ inst_id []
      else do
        let entry ← pyGetI st.messages inst_id
        if QUORUM_AMOUNT - 1 ≤ entry.length ∧ inst_id = (st.learned : Int) then do
          let (msB, learned', printed) ←
            advanceLoop inst_id value (st.messages.length + 1) st.messages st.learned
          learner_postlude ⟨msB, st.running, learned'⟩ inst_id printed
        else do
          let msB ← pySetI st.messages inst_id (entry ++ [value])
          learner_postlude ⟨msB, st.running, st.learned⟩ inst_id []
    else if tag = 3 then do
      let sent ← catchupLoop st.learned st.messages 0
      .ok (st, [], sent)
    else
      .ok (st, [], [[503]])
  else
    .ok (st, [], [])

/-- Fold of `learner_handle` over a list of decoded datagrams, collecting
printed `(slot, value)` pairs and sent payloads; an uncaught exception
aborts the run. -/
def lrun (st : LearnerState) : List (List Int) →
    Except String (LearnerState × List (Nat × Int) × List (List Int))
  | [] => .ok (st, [], [])
  | m :: ms => do
      let (st1, p1, s1) ← learner_handle st m
      let (st2, p2, s2) ← lrun st1 ms
      .ok (st2, p1 ++ p2, s1 ++ s2)

set_option maxRecDepth 8000

theorem decodeChunks_range (k : Nat) : ∀ (m : Int), ∀ x ∈ decodeChunks k m, 0 ≤ x ∧ x ≤ 65535 := by
  induction k with
  | zero => intro m x hx; simp [decodeChunks] at hx
  | succ n ih =>
      intro m x hx
      simp only [decodeChunks, List.mem_append, List.mem_singleton] at hx
      rcases hx with h | h
      · exact ih _ x h
      · subst h
        have h0 : Int.emod m 65536 = m % 65536 := rfl
        have h1 : 0 ≤ m % 65536 := Int.emod_nonneg m (by norm_num)
        have h2 : m % 65536 < 65536 := Int.emod_lt_of_pos m (by norm_num)
        rw [h0]
        omega

/-- C10: `paxos_decode` is total on byte strings — it is a plain function in
this embedding, defined on every `List Nat` including the empty string and
strings whose trailing length chunk exceeds the preceding chunks — and every
element of the returned list lies in `[0, 65535]`, because each chunk is the
floor-mod of the running message by `2^16`. -/
theorem C10_decode_total_range (bs : List Nat) (x : Int) (hx : x ∈ paxos_decode bs) :
    0 ≤ x ∧ x ≤ 65535 :=
  decodeChunks_range _ _ x hx

/-- Witness for C10 at the byte string `[0, 42, 0, 1]`, which decodes to
`[42]`. -/
theorem C10_decode_total_range_witness :
    (42 : Int) ∈ paxos_decode [0, 42, 0, 1] ∧ (0 ≤ (42 : Int) ∧ (42 : Int) ≤ 65535) :=
  ⟨by decide, C10_decode_total_range [0, 42, 0, 1] 42 (by decide)⟩

/-- C4: the round trip fails inside the claimed range — `paxos_encode`
serializes with `to_bytes(..., signed=True)`, so any list whose first
element is at least `32768` (e.g. `[32768]`, with every element in
`[0, 65535]`) raises `OverflowError` instead of producing bytes, while at
the boundary `[32767]` the round trip does hold. -/
theorem C4_roundtrip_breaks_at_32768 :
    paxos_encode [PyObj.int 32768] = .error "OverflowError: int too big to convert" ∧
    (paxos_encode [PyObj.int 32767]).map paxos_decode = .ok [32767] :=
  ⟨by decide, by decide⟩

/-- C8: `paxos_encode` rejects the in-range list `[65535]` with
`OverflowError` (16-bit values with the high bit set overflow the signed
serialization), silently accepts the out-of-range integer `70000`
(corrupting the neighbouring chunk, as the round trip `[1, 4464]` shows),
and raises a plain `Exception` — there is no `EncodeError` class in the
code — only for non-integer elements. -/
theorem C8_encode_error_behavior :
    paxos_encode [PyObj.int 65535] = .error "OverflowError: int too big to convert" ∧
    paxos_encode [PyObj.int 0, PyObj.int 70000] = .ok [0, 1, 17, 112, 0, 2] ∧
    (paxos_encode [PyObj.int 0, PyObj.int 70000]).map paxos_decode = .ok [1, 4464] ∧
    paxos_encode [PyObj.nonint] = .error "Exception: Expected list of integers as argument" :=
  ⟨by decide, by decide, by decide, by decide⟩

/-- C1: a learner execution whose printed sequence has a gap.  Instance 2
receives two differing votes (5 and 6); when instance 1 reaches the advance
loop the learner prints 9 for slot 0, then skips slot 1 — incrementing
`learned` without printing, because the votes disagree — and later prints 4
for slot 2.  The second printed value (k = 1) therefore corresponds to
instance 3, not instance 2, refuting the no-gap ordering claim. -/
theorem C1_printed_log_has_gap :
    (lrun linit [[2, 2, 1, 5], [2, 2, 1, 6], [1, 2, 1, 9], [1, 2, 1, 9],
                 [3, 2, 1, 4], [3, 2, 1, 4]]).map
      (fun r => (r.2.1, r.1.learned)) = .ok ([(0, 9), (2, 4)], 3) := by
  decide

/-- C2: the proposer does not emit PHASE_2A only when `Q` first reaches the
quorum.  After SUBMIT(42) and two counted 1Bs it emits `[1, 2, 1, 42]`; a
third counted 1B carrying `vrnd = 5, vval = 99` triggers a second emission
`[1, 2, 1, 99]` — a different value at the same ballot — and even a stale
1B (`rnd = 0 < c_rnd`) re-triggers the emission because the quorum test
runs outside the staleness guard. -/
theorem C2_repeated_2A_emission :
    (prop_run ([], 1) [[1, 0, 42], [1, 1, 1, 0, 0], [1, 1, 1, 0, 0],
                       [1, 1, 1, 5, 99], [1, 1, 0, 0, 0]]).map (fun r => r.2) =
      .ok [[1, 1, 1], [1, 2, 1, 42], [1, 2, 1, 99], [1, 2, 1, 99]] := by
  decide

/-- C3 counterexample: `v-rnd` is not monotone across arbitrary received
messages.  A PHASE_2A at round 2 sets `v-rnd = 2`; because the acceptor
never raises `rnd` on 2A, a later PHASE_2A at round 1 still passes the
`c-rnd ≥ rnd` check (1 ≥ 0) and lowers `v-rnd` to 1 while changing
`v-val`. -/
theorem C3_vrnd_decreases :
    (acc_run 0 acc_init [AccMsg.p2a 2 7]).vrnd = 2 ∧
    (acc_run 0 acc_init [AccMsg.p2a 2 7, AccMsg.p2a 1 9]).vrnd = 1 ∧
    (acc_run 0 acc_init [AccMsg.p2a 2 7, AccMsg.p2a 1 9]).vval = 9 :=
  ⟨by decide, by decide, by decide⟩

/-- C6: a learner-update message for an instance ahead of `learned`
crashes the learner.  On a fresh learner, the update `[2, 1, 9]` grows the
log, records three copies of 9 at index 1, and then unconditionally
executes `print(messages[learned][0])` with `messages[0] = []`, raising
`IndexError` — instead of force-deciding index 1 and printing only when
`idx == learned` as the claim states. -/
theorem C6_update_out_of_order_crashes :
    learner_handle linit [2, 1, 9] = .error "IndexError" := by
  decide

/-- C9 counterexample: protocol anomalies at the message boundary abort
role processes.  An empty datagram decodes to `[]` and the learner's
`msg[0]` raises `IndexError`; a well-formed PHASE_1B for an instance the
proposer never allocated raises `KeyError`.  Neither is caught anywhere. -/
theorem C9_anomaly_aborts_process :
    learner_handle linit (paxos_decode []) = .error "IndexError" ∧
    proposer_handle ([], 1) [1, 1, 1, 0, 0] = .error "KeyError" :=
  ⟨by decide, by decide⟩

/-- C7 counterexample: delivering a duplicate PHASE_2B changes learner
output.  After one copy of 2B(instance 1, value 7) nothing is printed; the
identical second copy pushes entry 0 to the `QUORUM - 1` threshold, enters
the advance loop and prints 7.  The duplicate is what produced the
output. -/
theorem C7_duplicate_2B_changes_output :
    (lrun linit [[1, 2, 1, 7]]).map (fun r => r.2.1) = .ok [] ∧
    (lrun linit [[1, 2, 1, 7], [1, 2, 1, 7]]).map (fun r => r.2.1) = .ok [(0, 7)] :=
  ⟨by decide, by decide⟩

theorem acc_run_rnd_mono (aid : Int) (ms : List AccMsg) :
    ∀ st : AccState, st.rnd ≤ (acc_run aid st ms).rnd := by
  induction ms with
  | nil => intro st; simp [acc_run]
  | cons m ms ih =>
      intro st
      have h1 : st.rnd ≤ (acceptor_step_i aid st m).1.rnd := by
        cases m with
        | p1a c => simp only [acceptor_step_i]; split <;> simp; omega
        | p2a c v => simp only [acceptor_step_i]; split <;> simp
        | resend => simp only [acceptor_step_i]; split <;> simp
        | other => simp [acceptor_step_i]
      exact le_trans h1 (ih ((acceptor_step_i aid st m).1))

theorem acc_run_wf_mono (aid : Int) (ms : List AccMsg) :
    ∀ st : AccState, wf2A aid st ms = true →
      st.vrnd ≤ (acc_run aid st ms).vrnd ∧
      ((acc_run aid st ms).vval ≠ st.vval → st.vrnd < (acc_run aid st ms).vrnd) := by
  induction ms with
  | nil =>
      intro st _
      exact ⟨le_refl _, fun h => absurd rfl h⟩
  | cons m ms ih =>
      intro st hwf
      simp only [wf2A, Bool.and_eq_true] at hwf
      obtain ⟨hm, htail⟩ := hwf
      have hrun : acc_run aid st (m :: ms) = acc_run aid (acceptor_step_i aid st m).1 ms := rfl
      cases m with
      | p1a c =>
          have hkeep : (acceptor_step_i aid st (.p1a c)).1.vrnd = st.vrnd ∧
              (acceptor_step_i aid st (.p1a c)).1.vval = st.vval := by
            simp only [acceptor_step_i]; split <;> simp
          have IH := ih _ htail
          rw [hrun]
          rw [hkeep.1, hkeep.2] at IH
          exact IH
      | p2a c v =>
          by_cases hc : c ≥ st.rnd
          · have hstep : (acceptor_step_i aid st (.p2a c v)).1 = ⟨st.rnd, c, v⟩ := by
              simp [acceptor_step_i, hc]
            have hlt : st.vrnd < c := (of_decide_eq_true hm) hc
            have IH := ih _ htail
            rw [hstep] at IH
            rw [hrun, hstep]
            exact ⟨le_of_lt (lt_of_lt_of_le hlt IH.1), fun _ => lt_of_lt_of_le hlt IH.1⟩
          · have hstep : (acceptor_step_i aid st (.p2a c v)).1 = st := by
              simp [acceptor_step_i, hc]
            have IH := ih _ htail
            rw [hstep] at IH
            rw [hrun, hstep]
            exact IH
      | resend =>
          have hstep : (acceptor_step_i aid st .resend).1 = st := by
            simp only [acceptor_step_i]; split <;> simp
          have IH := ih _ htail
          rw [hstep] at IH
          rw [hrun, hstep]
          exact IH
      | other =>
          have IH := ih _ htail
          rw [hrun]
          exact IH

/-- C3 amended: across any sequence of received messages, an acceptor
instance's `rnd` never decreases; and under the delivery discipline `wf2A`
— every PHASE_2A that passes the `c-rnd ≥ rnd` check carries `c-rnd`
strictly above the current `v-rnd` — `v-rnd` never decreases and `v-val`
changes only when `v-rnd` strictly increases.  (Without `wf2A` the
monotonicity of `v-rnd` fails, see the counterexample.) -/
theorem C3_monotone_under_wf2A (aid : Int) (st : AccState) (ms : List AccMsg)
    (h : wf2A aid st ms = true) :
    st.rnd ≤ (acc_run aid st ms).rnd ∧
    st.vrnd ≤ (acc_run aid st ms).vrnd ∧
    ((acc_run aid st ms).vval ≠ st.vval → st.vrnd < (acc_run aid st ms).vrnd) :=
  ⟨acc_run_rnd_mono aid ms st, (acc_run_wf_mono aid ms st h).1, (acc_run_wf_mono aid ms st h).2⟩

/-- Witness for the amended C3 on the run `[PHASE_1A 1, PHASE_2A 1 42]`
from the initial acceptor state. -/
theorem C3_monotone_under_wf2A_witness :
    acc_init.rnd ≤ (acc_run 0 acc_init [AccMsg.p1a 1, AccMsg.p2a 1 42]).rnd ∧
    acc_init.vrnd ≤ (acc_run 0 acc_init [AccMsg.p1a 1, AccMsg.p2a 1 42]).vrnd ∧
    ((acc_run 0 acc_init [AccMsg.p1a 1, AccMsg.p2a 1 42]).vval ≠ acc_init.vval →
      acc_init.vrnd < (acc_run 0 acc_init [AccMsg.p1a 1, AccMsg.p2a 1 42]).vrnd) :=
  C3_monotone_under_wf2A 0 acc_init [AccMsg.p1a 1, AccMsg.p2a 1 42] (by decide)

/-- C5: both renewal sites behave identically on the state — the RESTART
branch of the proposer loop and one firing of the `proposer_timeout`
watchdog body each set `c-rnd` to its successor, keep `client-val`
unchanged, zero `Q`, `highest-v-rnd` and `c-val`, and resend PHASE_1A at
the new round. -/
theorem C5_renewal_frame (pm : List (Int × PropInst)) (pinit i : Int) (st : PropInst)
    (h : alookup pm i = some st) (hq : st.Q < QUORUM_AMOUNT) :
    proposer_handle (pm, pinit) [i, 5] =
      .ok ((aset pm i ⟨st.c_rnd + 1, st.client_val, 0, 0, 0⟩, pinit), [[i, 1, st.c_rnd + 1]]) ∧
    proposer_timeout_body pm i =
      .ok (aset pm i ⟨st.c_rnd + 1, st.client_val, 0, 0, 0⟩, [[i, 1, st.c_rnd + 1]]) := by
  constructor
  · simp [proposer_handle, pyGetE, h, Bind.bind, Except.bind]
  · simp [proposer_timeout_body, h, hq]

/-- Witness for C5 on a one-instance proposer map with
`c-rnd = 3, client-val = 42, Q = 1, highest-v-rnd = 4, c-val = 7`. -/
theorem C5_renewal_frame_witness :
    proposer_handle ([(1, ⟨3, 42, 1, 4, 7⟩)], 2) [1, 5] =
      .ok ((aset [(1, ⟨3, 42, 1, 4, 7⟩)] 1 ⟨4, 42, 0, 0, 0⟩, 2), [[1, 1, 4]]) ∧
    proposer_timeout_body [(1, ⟨3, 42, 1, 4, 7⟩)] 1 =
      .ok (aset [(1, ⟨3, 42, 1, 4, 7⟩)] 1 ⟨4, 42, 0, 0, 0⟩, [[1, 1, 4]]) :=
  C5_renewal_frame [(1, ⟨3, 42, 1, 4, 7⟩)] 2 1 ⟨3, 42, 1, 4, 7⟩ (by decide) (by decide)

theorem pyGetI_natCast {α : Type} (l : List α) (n : Nat) (a : α) (h : l.get? n = some a) :
    pyGetI l (n : Int) = .ok a := by
  rw [List.get?_eq_getElem?] at h
  simp [pyGetI, h, show ¬((n : Int) < 0) from by omega, show ((n : Int)).toNat = n from rfl]

theorem pySetI_natCast {α : Type} (l : List α) (n : Nat) (x : α) (h : n < l.length) :
    pySetI l (n : Int) x = .ok (l.set n x) := by
  simp [pySetI, show ¬((n : Int) < 0) from by omega, show ((n : Int)).toNat = n from rfl,
        show ((n : Int)) < (l.length : Int) from by omega]

/-- C7 amended: a PHASE_2B for an instance below the learned pointer never
prints anything and never moves the pointer, but the entry is not
immutable — the vote is appended to its multiset.  (The duplicate half of
the original claim fails, see the counterexample.) -/
theorem C7_decided_2B_no_output (st : LearnerState) (idx : Nat) (r v : Int) (entry : List Int)
    (hidx : idx < st.learned) (hlen : st.learned ≤ st.messages.length)
    (hget : st.messages.get? idx = some entry) (hne : entry ≠ []) :
    learner_handle st [(idx : Int) + 1, 2, r, v] =
      .ok (⟨st.messages.set idx (entry ++ [v]), st.running, st.learned⟩, [], []) := by
  have hlt : idx < st.messages.length := lt_of_lt_of_le hidx hlen
  have hn1 : ¬(st.messages.length < idx) := by omega
  have hn2 : ¬(idx = st.messages.length) := by omega
  have hn3 : ¬(idx = st.learned) := by omega
  have hG : pyGetI st.messages (idx : Int) = .ok entry := pyGetI_natCast _ _ _ hget
  have hS : pySetI st.messages (idx : Int) (entry ++ [v]) =
      .ok (st.messages.set idx (entry ++ [v])) := pySetI_natCast _ _ _ hlt
  have hG2 : pyGetI (st.messages.set idx (entry ++ [v])) (idx : Int) = .ok (entry ++ [v]) := by
    refine pyGetI_natCast _ _ _ ?_
    rw [List.get?_eq_getElem?]
    simp [List.getElem?_set, hlt]
  have hand : ¬(QUORUM_AMOUNT ≤ entry.length + 1 ∧ idx = st.learned) := fun hc => hn3 hc.2
  simp [learner_handle, learner_postlude, pyGetE, Bind.bind, Except.bind,
        hn1, hn2, hG, hS, hG2, hand, hne]

/-- Witness for the amended C7: a learner that has advanced past instance 1
(entry `[5]`) receives another 2B for instance 1 with value 8; nothing is
printed but the entry grows to `[5, 8]`. -/
theorem C7_decided_2B_no_output_witness :
    learner_handle ⟨[[5], [6, 6]], [true, true], 2⟩ [((0 : Nat) : Int) + 1, 2, 3, 8] =
      .ok (⟨[[5, 8], [6, 6]], [true, true], 2⟩, [], []) := by
  have h := C7_decided_2B_no_output ⟨[[5], [6, 6]], [true, true], 2⟩ 0 3 8 [5]
    (by decide) (by decide) (by decide) (by decide)
  simpa using h

theorem acceptor_handle_unknown_tag (pm : List (Int × AccState)) (a t : Int) (rest : List Int)
    (h1 : t ≠ 1) (h2 : t ≠ 2) :
    (acceptor_handle pm (a :: t :: rest)).isOk = true := by
  simp only [acceptor_handle, pyGetE, Bind.bind, Except.bind]
  simp [h1, h2]
  by_cases h4 : t = 4
  · simp [h4, acceptor_step_i]
    split <;> rfl
  · simp [h4]
    rfl

theorem proposer_handle_unknown_tag (pm : List (Int × PropInst)) (pinit a t : Int)
    (rest : List Int) (h0 : t ≠ 0) (h1 : t ≠ 1) (h5 : t ≠ 5) :
    proposer_handle (pm, pinit) (a :: t :: rest) = .ok ((pm, pinit), []) := by
  simp [proposer_handle, pyGetE, Bind.bind, Except.bind, h0, h1, h5]

theorem learner_handle_unknown_tag (st : LearnerState) (a t : Int) (rest : List Int)
    (h1 : t ≠ 1) (h2 : t ≠ 2) (h3 : t ≠ 3) :
    learner_handle st (a :: t :: rest) = .ok (st, [], [[503]]) := by
  simp [learner_handle, pyGetE, Bind.bind, Except.bind, h1, h2, h3]

theorem acceptor_handle_stale_1A (pm : List (Int × AccState)) (i c : Int)
    (hc : c ≤ ((alookup pm i).getD acc_init).rnd) :
    acceptor_handle pm [i, 1, c] = .ok (aset pm i ((alookup pm i).getD acc_init), []) := by
  have hng : ¬(c > ((alookup pm i).getD acc_init).rnd) := by omega
  simp [acceptor_handle, pyGetE, Bind.bind, Except.bind, acceptor_step_i, hng]

theorem proposer_handle_stale_1B (pm : List (Int × PropInst)) (pinit i rnd vrnd vval : Int)
    (st : PropInst) (h : alookup pm i = some st) (hst : rnd < st.c_rnd) :
    proposer_handle (pm, pinit) [i, 1, rnd, vrnd, vval] =
      .ok ((aset pm i st, pinit),
        if QUORUM_AMOUNT ≤ st.Q then
          [[i, 2, st.c_rnd, if st.highest_v_rnd = 0 then st.client_val else st.c_val]]
        else []) := by
  have hng : ¬(st.c_rnd ≤ rnd) := by omega
  simp [proposer_handle, pyGetE, Bind.bind, Except.bind, h, handle1B, hng, apply_ite]

/-- C9 amended: the anomalies the roles do survive.  Unknown tags never
abort — the acceptor's else branch only logs (and RESEND_2B is handled),
the proposer falls through silently, and the learner answers `[503]` —
and stale messages are not fatal either: a stale PHASE_1A leaves the
acceptor state unchanged, and a stale PHASE_1B leaves the proposer state
unchanged (though it still re-triggers a 2A emission whenever `Q` already
reached the quorum).  Truncated datagrams and unknown-instance 1B/RESTART
messages, by contrast, abort the process (see the counterexample). -/
theorem C9_benign_anomalies :
    (∀ (pm : List (Int × AccState)) (a t : Int) (rest : List Int), t ≠ 1 → t ≠ 2 →
        (acceptor_handle pm (a :: t :: rest)).isOk = true) ∧
    (∀ (pm : List (Int × PropInst)) (pinit a t : Int) (rest : List Int),
        t ≠ 0 → t ≠ 1 → t ≠ 5 →
        proposer_handle (pm, pinit) (a :: t :: rest) = .ok ((pm, pinit), [])) ∧
    (∀ (st : LearnerState) (a t : Int) (rest : List Int), t ≠ 1 → t ≠ 2 → t ≠ 3 →
        learner_handle st (a :: t :: rest) = .ok (st, [], [[503]])) ∧
    (∀ (pm : List (Int × AccState)) (i c : Int),
        c ≤ ((alookup pm i).getD acc_init).rnd →
        acceptor_handle pm [i, 1, c] = .ok (aset pm i ((alookup pm i).getD acc_init), [])) ∧
    (∀ (pm : List (Int × PropInst)) (pinit i rnd vrnd vval : Int) (st : PropInst),
        alookup pm i = some st → rnd < st.c_rnd →
        proposer_handle (pm, pinit) [i, 1, rnd, vrnd, vval] =
          .ok ((aset pm i st, pinit),
            if QUORUM_AMOUNT ≤ st.Q then
              [[i, 2, st.c_rnd, if st.highest_v_rnd = 0 then st.client_val else st.c_val]]
            else [])) :=
  ⟨acceptor_handle_unknown_tag, proposer_handle_unknown_tag, learner_handle_unknown_tag,
   acceptor_handle_stale_1A, proposer_handle_stale_1B⟩

/-- Witness for the amended C9: concrete unknown-tag datagrams at each
role, a stale PHASE_1A at a fresh acceptor instance, and a stale PHASE_1B
at a proposer instance with `c-rnd = 2, Q = 0`. -/
theorem C9_benign_anomalies_witness :
    (acceptor_handle [] (7 :: 9 :: [])).isOk = true ∧
    proposer_handle ([], 1) (1 :: 7 :: []) = .ok (([], 1), []) ∧
    learner_handle linit (1 :: 7 :: []) = .ok (linit, [], [[503]]) ∧
    acceptor_handle [] [5, 1, 0] = .ok (aset [] 5 ((alookup [] 5).getD acc_init), []) ∧
    proposer_handle ([(1, ⟨2, 42, 0, 0, 0⟩)], 3) [1, 1, 1, 6, 8] =
      .ok ((aset [(1, ⟨2, 42, 0, 0, 0⟩)] 1 ⟨2, 42, 0, 0, 0⟩, 3), []) :=
  ⟨C9_benign_anomalies.1 [] 7 9 [] (by decide) (by decide),
   C9_benign_anomalies.2.1 [] 1 1 7 [] (by decide) (by decide) (by decide),
   C9_benign_anomalies.2.2.1 linit 1 7 [] (by decide) (by decide) (by decide),
   C9_benign_anomalies.2.2.2.1 [] 5 0 (by decide),
   C9_benign_anomalies.2.2.2.2 [(1, ⟨2, 42, 0, 0, 0⟩)] 3 1 1 6 8 ⟨2, 42, 0, 0, 0⟩
     (by decide) (by decide)⟩
